import Mathlib

/-!
Shallow embedding of the `led-sectional-rust` core
(`crates/led-sectional-core/src/{led,config,metar}.rs` and the firmware
control loop in `firmware/src/main.rs`), together with theorems checking
the natural-language specification against it.

Machine integers (`u8`, `u16`, `u32`, `u64`, `usize`) are modelled as
`Nat`, with an explicit `% 2 ^ w` wherever the Rust code performs a
truncating cast or arithmetic in a fixed-width type where overflow is
conceivable. `Vec<T>` is `List T`, `Option<T>` is `Option T`,
`Result<T>` is `Except Error T`, and `HashMap<String, MetarReport>` is a
lookup function `String → Option MetarReport` built by left-to-right
insertion (later duplicate keys overwrite earlier ones, as with
`HashMap::from_iter`).  `Instant` timestamps in the control loop are
modelled as `Int` seconds.
-/

namespace LedSectional

/-- `Color` from `led.rs`: RGB, one `u8` per channel (modelled as `Nat`;
the constants below all fit in a byte). -/
structure Color where
  r : Nat
  g : Nat
  b : Nat
deriving DecidableEq, Repr

def Color.new (r g b : Nat) : Color := ⟨r, g, b⟩

-- Flight category colors (led.rs lines 18-24)
def COLOR_VFR : Color := Color.new 0 255 0
def COLOR_MVFR : Color := Color.new 0 0 255
def COLOR_IFR : Color := Color.new 255 0 0
def COLOR_LIFR : Color := Color.new 255 0 255
def COLOR_WIND : Color := Color.new 255 255 0
def COLOR_UNKNOWN : Color := Color.new 0 0 0
def COLOR_LIGHTNING : Color := Color.new 255 255 255

-- Status colors (led.rs lines 27-29)
def COLOR_CONNECTING : Color := Color.new 255 165 0
def COLOR_CONNECTED : Color := Color.new 128 0 128
def COLOR_FETCH_ERROR : Color := Color.new 0 255 255

/-- `Error` from `error.rs` (the two parse variants carry library error
values we do not model further). -/
inductive Error where
  | configParse
  | jsonParse
  | ledIndexOutOfBounds (index : Nat) (num_leds : Nat)
deriving DecidableEq, Repr

/-- `LedState` from `led.rs`: color buffer, brightness, and the lightning
overlay (flashing indices plus saved pre-flash `(index, color)` pairs). -/
structure LedState where
  leds : List Color
  brightness : Nat
  lightning_indices : List Nat
  lightning_saved : List (Nat × Color)
deriving DecidableEq, Repr

namespace LedState

/-- `LedState::new`: all slots `COLOR_UNKNOWN`, empty overlay. -/
def new (num_leds : Nat) (brightness : Nat) : LedState :=
  { leds := List.replicate num_leds COLOR_UNKNOWN
    brightness := brightness
    lightning_indices := []
    lightning_saved := [] }

/-- `LedState::num_leds`. -/
def num_leds (s : LedState) : Nat := s.leds.length

/-- `LedState::set`: fails with `LedIndexOutOfBounds` when `index ≥ len`. -/
def set (s : LedState) (index : Nat) (color : Color) : Except Error LedState :=
  if index ≥ s.leds.length then
    .error (.ledIndexOutOfBounds index s.leds.length)
  else
    .ok { s with leds := s.leds.set index color }

/-- `LedState::get`. -/
def get (s : LedState) (index : Nat) : Except Error Color :=
  match s.leds.get? index with
  | some c => .ok c
  | none => .error (.ledIndexOutOfBounds index s.leds.length)

/-- `let _ = led_state.set(i, color)` as used by the update pipeline:
the result is applied when `set` succeeds and the error is discarded
(leaving the state unchanged) when it fails. -/
def setDiscard (s : LedState) (index : Nat) (color : Color) : LedState :=
  match s.set index color with
  | .ok s' => s'
  | .error _ => s

/-- `LedState::set_all` (`Vec::fill`): overwrite every slot. -/
def set_all (s : LedState) (color : Color) : LedState :=
  { s with leds := s.leds.map (fun _ => color) }

/-- `LedState::brightness_scaled_buffer`: each channel is computed in
`u16` as `(c as u16 * brightness as u16) / 255` and then cast back with
`as u8`; the `% 65536` and `% 256` mirror those fixed-width steps. -/
def brightness_scaled_buffer (s : LedState) : List Color :=
  let scale := s.brightness
  s.leds.map (fun c =>
    { r := ((c.r * scale) % 65536) / 255 % 256
      g := ((c.g * scale) % 65536) / 255 % 256
      b := ((c.b * scale) % 65536) / 255 % 256 })

/-- `LedState::set_lightning_indices`: snapshot the current color of each
listed index that is in bounds, and store the given index list itself
(unfiltered) as the overlay index set. -/
def set_lightning_indices (s : LedState) (indices : List Nat) : LedState :=
  { s with
    lightning_saved :=
      indices.filterMap (fun i => (s.leds.get? i).map (fun c => (i, c)))
    lightning_indices := indices }

/-- The flash loop body of `apply_lightning_flash`: set every listed
in-bounds index to `COLOR_LIGHTNING`. -/
def flashWrites (indices : List Nat) (l : List Color) : List Color :=
  indices.foldl (fun l i => if i < l.length then l.set i COLOR_LIGHTNING else l) l

/-- `LedState::apply_lightning_flash`: `false` and no change when the
index list is empty; otherwise re-snapshot the in-bounds indices, paint
them `COLOR_LIGHTNING`, and return `true`. -/
def apply_lightning_flash (s : LedState) : Bool × LedState :=
  if s.lightning_indices.isEmpty then (false, s)
  else
    (true,
      { s with
        lightning_saved :=
          s.lightning_indices.filterMap
            (fun i => (s.leds.get? i).map (fun c => (i, c)))
        leds := flashWrites s.lightning_indices s.leds })

/-- The restore loop body of `restore_lightning`: write back each saved
`(index, color)` pair, skipping out-of-bounds indices. -/
def restoreWrites (saved : List (Nat × Color)) (l : List Color) : List Color :=
  saved.foldl (fun l p => if p.1 < l.length then l.set p.1 p.2 else l) l

/-- `LedState::restore_lightning`. -/
def restore_lightning (s : LedState) : LedState :=
  { s with leds := restoreWrites s.lightning_saved s.leds }

end LedState

/-- `flight_category_color` from `led.rs`: the Rust `match` on the
category string with the wind guard on the `"VFR"` arm. -/
def flight_category_color (category : Option String) (wind_speed : Option Nat)
    (wind_gust : Option Nat) (wind_threshold : Nat) (do_winds : Bool) : Color :=
  let max_wind := max (wind_speed.getD 0) (wind_gust.getD 0)
  let is_windy := max_wind > wind_threshold
  match category with
  | some c =>
    if c = "VFR" then
      if is_windy ∧ do_winds = true then COLOR_WIND else COLOR_VFR
    else if c = "MVFR" then COLOR_MVFR
    else if c = "IFR" then COLOR_IFR
    else if c = "LIFR" then COLOR_LIFR
    else COLOR_UNKNOWN
  | none => COLOR_UNKNOWN

/-- `special_code_color` from `led.rs`: the static legend color of a
special airport code, `none` for anything else.  (Note the `match` in the
source has arms for seven codes only; `"WBNK"` is not among them.) -/
def special_code_color (code : String) : Option Color :=
  if code = "VFR" then some COLOR_VFR
  else if code = "MVFR" then some COLOR_MVFR
  else if code = "IFR" then some COLOR_IFR
  else if code = "LIFR" then some COLOR_LIFR
  else if code = "WVFR" then some COLOR_WIND
  else if code = "LTNG" then some COLOR_VFR
  else if code = "NULL" then some COLOR_UNKNOWN
  else none

/-- `SPECIAL_CODES` from `config.rs` (eight entries, including `"WBNK"`). -/
def SPECIAL_CODES : List String :=
  ["NULL", "VFR", "MVFR", "IFR", "LIFR", "WVFR", "LTNG", "WBNK"]

/-- `is_special_code` from `config.rs`. -/
def is_special_code (code : String) : Bool := SPECIAL_CODES.contains code

/-! ## METAR model (`metar.rs`) -/

/-- Does `p` occur as a leading run of `l`? (character-list helper for
Rust's `str::contains`). -/
def matchesAt : List Char → List Char → Bool
  | [], _ => true
  | _ :: _, [] => false
  | a :: p, b :: l => a == b && matchesAt p l

/-- Does `p` occur as a contiguous run anywhere in `l`? -/
def containsSeq (p : List Char) : List Char → Bool
  | [] => matchesAt p []
  | b :: l => matchesAt p (b :: l) || containsSeq p l

/-- Rust `str::contains(pat)`: substring containment, case-sensitive. -/
def strContains (s pat : String) : Bool := containsSeq pat.toList s.toList

/-- `MetarReport` from `metar.rs` (`wspd`/`wgst` are `Option<u32>`,
modelled as `Option Nat`). -/
structure MetarReport where
  icao_id : String
  flt_cat : Option String
  wspd : Option Nat
  wgst : Option Nat
  wx_string : Option String
deriving DecidableEq, Repr

/-- `MetarReport::has_thunderstorm`: the weather string contains `"TS"`. -/
def MetarReport.has_thunderstorm (m : MetarReport) : Bool :=
  match m.wx_string with
  | some wx => strContains wx "TS"
  | none => false

/-- `MetarReport::max_wind`. -/
def MetarReport.max_wind (m : MetarReport) : Nat :=
  max (m.wspd.getD 0) (m.wgst.getD 0)

def METAR_BASE_URL : String :=
  "https://aviationweather.gov/api/data/metar?format=json&ids="

/-- `build_metar_url` from `metar.rs`: base URL followed by the codes
joined with `","`. -/
def build_metar_url (codes : List String) : String :=
  METAR_BASE_URL ++ String.intercalate "," codes

/-- Split a character list on `','` (the inverse of joining with
`","`). -/
def splitOnComma : List Char → List (List Char)
  | [] => [[]]
  | c :: rest =>
    if c = ',' then [] :: splitOnComma rest
    else
      match splitOnComma rest with
      | [] => [[c]]
      | h :: t => (c :: h) :: t

/-- Modelled from the spec: the source has no URL parser (only
`build_metar_url`); spec §8 requires that "building a fetch URL/query
from codes … then parsing it back must recover the same ordered code
list", so the inverse is modelled as stripping the fixed base URL and
splitting the `ids` query value on `","`. -/
def parse_metar_url (url : String) : Option (List String) :=
  let base := METAR_BASE_URL.toList
  let u := url.toList
  if matchesAt base u then
    some ((splitOnComma (u.drop base.length)).map (fun cs => String.mk cs))
  else none

/-- `metars_by_icao` from `metar.rs`: index the reports by `icao_id`
into a lookup map; later duplicate keys overwrite earlier ones. -/
def metars_by_icao (reports : List MetarReport) : String → Option MetarReport :=
  reports.foldl (fun m r => fun k => if k = r.icao_id then some r else m k)
    (fun _ => none)

/-! ## Configuration model (`config.rs`) -/

/-- `Airport` from `config.rs`. -/
structure Airport where
  code : String
deriving DecidableEq, Repr

/-- `Settings` from `config.rs` (`brightness: u8`,
`request_interval_secs: u64`, `wind_threshold_kt: u32`, all as `Nat`). -/
structure Settings where
  brightness : Nat
  request_interval_secs : Nat
  wind_threshold_kt : Nat
  do_lightning : Bool
  do_winds : Bool
  data_pin : Nat
deriving DecidableEq, Repr

/-- `Settings::default()` with the documented defaults
(brightness 20, interval 900 s, wind threshold 25 kt, both toggles on,
data pin 2). -/
def Settings.default : Settings :=
  { brightness := 20
    request_interval_secs := 900
    wind_threshold_kt := 25
    do_lightning := true
    do_winds := true
    data_pin := 2 }

/-- `WifiConfig` from `config.rs`. -/
structure WifiConfig where
  ssid : Option String
  password : Option String
deriving DecidableEq, Repr

/-- `Config` from `config.rs`. -/
structure Config where
  settings : Settings
  wifi : WifiConfig
  airports : List Airport
deriving DecidableEq, Repr

/-- Rust `Ord::clamp` on unsigned integers. -/
def clampNat (x lo hi : Nat) : Nat :=
  if x < lo then lo else if x > hi then hi else x

namespace Config

/-- `Config::validate`: clamp the interval to `[60, 3600]` and the wind
threshold to `[0, 100]`. -/
def validate (c : Config) : Config :=
  { c with
    settings :=
      { c.settings with
        request_interval_secs := clampNat c.settings.request_interval_secs 60 3600
        wind_threshold_kt := clampNat c.settings.wind_threshold_kt 0 100 } }

/-- `Config::from_toml`: deserialize then validate.  The TOML
deserializer is the external `toml` crate, so it is taken as a parameter
`parse`; on success its output is validated exactly once. -/
def from_toml (parse : String → Except Error Config) (s : String) :
    Except Error Config :=
  match parse s with
  | .ok c => .ok c.validate
  | .error e => .error e

/-- `Config::num_leds`. -/
def num_leds (c : Config) : Nat := c.airports.length

/-- `Config::metar_airport_codes`: the real (non-special) codes, in
order. -/
def metar_airport_codes (c : Config) : List String :=
  c.airports.filterMap (fun a =>
    if is_special_code a.code then none else some a.code)

end Config

/-! ## Update pipeline (`led.rs`, `update_leds_from_metars`) -/

/-- The loop body of `update_leds_from_metars`, one airport slot at a
time with its running index `i`.  The `i ≥ num_leds` test is the `break`
of the source (once true it stays true, since `set` preserves the buffer
length).  Lightning indices are produced in iteration order. -/
def update_go (metars : String → Option MetarReport) (wind_threshold : Nat)
    (do_winds : Bool) : List Airport → Nat → LedState → LedState × List Nat
  | [], _, s => (s, [])
  | a :: rest, i, s =>
    if i ≥ s.num_leds then (s, [])
    else
      match special_code_color a.code with
      | some color =>
        let s' := s.setDiscard i color
        let r := update_go metars wind_threshold do_winds rest (i + 1) s'
        (r.1, if a.code = "LTNG" then i :: r.2 else r.2)
      | none =>
        match metars a.code with
        | some m =>
          let color :=
            flight_category_color m.flt_cat m.wspd m.wgst wind_threshold do_winds
          let s' := s.setDiscard i color
          let r := update_go metars wind_threshold do_winds rest (i + 1) s'
          (r.1, if m.has_thunderstorm then i :: r.2 else r.2)
        | none =>
          update_go metars wind_threshold do_winds rest (i + 1)
            (s.setDiscard i COLOR_UNKNOWN)

/-- `update_leds_from_metars` from `led.rs`: walk the airport list,
color each slot (special legend color / resolved category color /
`COLOR_UNKNOWN`), and return the collected lightning indices. -/
def update_leds_from_metars (led_state : LedState) (airports : List Airport)
    (metars : String → Option MetarReport) (wind_threshold : Nat)
    (do_winds : Bool) : LedState × List Nat :=
  update_go metars wind_threshold do_winds airports 0 led_state

/-- The same loop with the `set` errors propagated instead of discarded:
used to show the `IndexOutOfBounds` branch is unreachable. -/
def update_go_checked (metars : String → Option MetarReport)
    (wind_threshold : Nat) (do_winds : Bool) :
    List Airport → Nat → LedState → Except Error (LedState × List Nat)
  | [], _, s => .ok (s, [])
  | a :: rest, i, s =>
    if i ≥ s.num_leds then .ok (s, [])
    else
      match special_code_color a.code with
      | some color => do
        let s' ← s.set i color
        let r ← update_go_checked metars wind_threshold do_winds rest (i + 1) s'
        .ok (r.1, if a.code = "LTNG" then i :: r.2 else r.2)
      | none =>
        match metars a.code with
        | some m => do
          let color :=
            flight_category_color m.flt_cat m.wspd m.wgst wind_threshold do_winds
          let s' ← s.set i color
          let r ← update_go_checked metars wind_threshold do_winds rest (i + 1) s'
          .ok (r.1, if m.has_thunderstorm then i :: r.2 else r.2)
        | none => do
          let s' ← s.set i COLOR_UNKNOWN
          update_go_checked metars wind_threshold do_winds rest (i + 1) s'

/-- `update_leds_from_metars` with `set` errors propagated. -/
def update_leds_checked (led_state : LedState) (airports : List Airport)
    (metars : String → Option MetarReport) (wind_threshold : Nat)
    (do_winds : Bool) : Except Error (LedState × List Nat) :=
  update_go_checked metars wind_threshold do_winds airports 0 led_state

/-! ## Control loop (`firmware/src/main.rs`, `run_main_loop`) -/

/-- `MetarFetchError` from `firmware/src/metar_client.rs` (payload
strings and status codes elided except for `HttpStatus`). -/
inductive MetarFetchError where
  | connection
  | request
  | response
  | httpStatus (code : Nat)
  | read
  | utf8
  | parse
deriving DecidableEq, Repr

/-- The fixed accelerated-retry backoff on fetch failure:
`Duration::from_secs(60)` in `run_main_loop`. -/
def FETCH_RETRY_BACKOFF_SECS : Nat := 60

/-- The mutable state of `run_main_loop`: the LED state and the
`last_fetch` instant (an `Int` timestamp in seconds). -/
structure LoopState where
  led : LedState
  last_fetch : Int
deriving DecidableEq, Repr

/-- The fetch phase of one `run_main_loop` iteration (main.rs lines
93-120), with the wall clock `now` and the fetch outcome passed in.  If
a fetch is due (`elapsed ≥ interval`): on success index the reports,
run the update pipeline, install the lightning indices and reset
`last_fetch` to `now`; on failure paint the whole buffer
`COLOR_FETCH_ERROR` and set `last_fetch` to `now - interval + 60` so the
next fetch is due 60 s from now. -/
def run_loop_fetch_step (airports : List Airport) (wind_threshold : Nat)
    (do_winds : Bool) (interval : Nat) (now : Int) (st : LoopState)
    (fetch_result : Except MetarFetchError (List MetarReport)) : LoopState :=
  if now - st.last_fetch ≥ (interval : Int) then
    match fetch_result with
    | .ok reports =>
      let metar_map := metars_by_icao reports
      let r := update_leds_from_metars st.led airports metar_map
        wind_threshold do_winds
      { led := r.1.set_lightning_indices r.2, last_fetch := now }
    | .error _ =>
      { led := st.led.set_all COLOR_FETCH_ERROR
        last_fetch := now - (interval : Int) + (FETCH_RETRY_BACKOFF_SECS : Int) }
  else st

/-- The earliest instant at which the next fetch is due: a fetch fires
when `now' - last_fetch ≥ interval`. -/
def next_fetch_due_time (interval : Nat) (st : LoopState) : Int :=
  st.last_fetch + (interval : Int)

/-! ## Theorems -/

/-- C1, counterexample: `"WBNK"` is one of the 8 recognized special
codes (`SPECIAL_CODES` / `is_special_code` in `config.rs`), yet
`special_code_color` returns `none` for it, so the lookup is not total
over the 8-code set as the claim states. -/
theorem special_code_color_wbnk_none :
    is_special_code "WBNK" = true ∧ special_code_color "WBNK" = none := by
  decide

/-- C1, amended: the special-code color lookup is total over exactly the
seven codes NULL, VFR, MVFR, IFR, LIFR, WVFR, LTNG — for each of those it
returns the corresponding fixed legend color — and it returns `none` for
every other string, including the empty string and `"WBNK"` (which
`is_special_code` recognizes but the color lookup does not). -/
theorem special_code_color_seven_recognized :
    ∀ code : String,
      ((special_code_color code).isSome = true ↔
        code ∈ ["NULL", "VFR", "MVFR", "IFR", "LIFR", "WVFR", "LTNG"]) ∧
      (special_code_color "NULL" = some COLOR_UNKNOWN ∧
        special_code_color "VFR" = some COLOR_VFR ∧
        special_code_color "MVFR" = some COLOR_MVFR ∧
        special_code_color "IFR" = some COLOR_IFR ∧
        special_code_color "LIFR" = some COLOR_LIFR ∧
        special_code_color "WVFR" = some COLOR_WIND ∧
        special_code_color "LTNG" = some COLOR_VFR ∧
        special_code_color "" = none ∧
        special_code_color "WBNK" = none) := by
  intro code
  refine ⟨?_, by decide⟩
  unfold special_code_color
  split_ifs with h1 h2 h3 h4 h5 h6 h7 <;> subst_vars <;> simp_all

/-- C2: on the nine-slot demo configuration
`[LIFR, IFR, MVFR, VFR, WVFR, KSFO, KLAX, NULL, LTNG]` with a report map
holding only KSFO (category VFR, wind speed 30), wind threshold 25 and
winds enabled, `update_leds_from_metars` produces exactly the buffer
`[LIFR, IFR, MVFR, VFR, WIND, WIND, UNKNOWN, UNKNOWN, VFR]` and the
returned lightning index list contains index 8 (the LTNG slot). -/
theorem update_from_reports_demo_scenario :
    (update_leds_from_metars (LedState.new 9 20)
      [⟨"LIFR"⟩, ⟨"IFR"⟩, ⟨"MVFR"⟩, ⟨"VFR"⟩, ⟨"WVFR"⟩, ⟨"KSFO"⟩, ⟨"KLAX"⟩,
        ⟨"NULL"⟩, ⟨"LTNG"⟩]
      (metars_by_icao [⟨"KSFO", some "VFR", some 30, none, none⟩])
      25 true).1.leds =
      [COLOR_LIFR, COLOR_IFR, COLOR_MVFR, COLOR_VFR, COLOR_WIND, COLOR_WIND,
        COLOR_UNKNOWN, COLOR_UNKNOWN, COLOR_VFR] ∧
    8 ∈ (update_leds_from_metars (LedState.new 9 20)
      [⟨"LIFR"⟩, ⟨"IFR"⟩, ⟨"MVFR"⟩, ⟨"VFR"⟩, ⟨"WVFR"⟩, ⟨"KSFO"⟩, ⟨"KLAX"⟩,
        ⟨"NULL"⟩, ⟨"LTNG"⟩]
      (metars_by_icao [⟨"KSFO", some "VFR", some 30, none, none⟩])
      25 true).2 := by
  decide

/-- C5: `flight_category_color` returns the WIND color iff the category
is VFR, winds are enabled, and `max(speed or 0, gust or 0)` strictly
exceeds the threshold; MVFR/IFR/LIFR always map to their own colors
regardless of wind; any other or absent category maps to UNKNOWN. -/
theorem flight_category_color_wind_iff :
    ∀ (category : Option String) (ws wg : Option Nat) (t : Nat) (dw : Bool),
      (flight_category_color category ws wg t dw = COLOR_WIND ↔
        category = some "VFR" ∧ dw = true ∧ t < max (ws.getD 0) (wg.getD 0)) ∧
      flight_category_color (some "MVFR") ws wg t dw = COLOR_MVFR ∧
      flight_category_color (some "IFR") ws wg t dw = COLOR_IFR ∧
      flight_category_color (some "LIFR") ws wg t dw = COLOR_LIFR ∧
      (∀ c : String, category = some c → c ≠ "VFR" → c ≠ "MVFR" → c ≠ "IFR" →
        c ≠ "LIFR" → flight_category_color category ws wg t dw = COLOR_UNKNOWN) ∧
      flight_category_color none ws wg t dw = COLOR_UNKNOWN := by
  intro category ws wg t dw
  refine ⟨?_, by simp [flight_category_color], by simp [flight_category_color],
    by simp [flight_category_color], ?_, by simp [flight_category_color]⟩
  · cases category with
    | none => simp [flight_category_color, COLOR_UNKNOWN, COLOR_WIND, Color.new]
    | some c =>
      by_cases h1 : c = "VFR"
      · subst h1
        simp only [flight_category_color, eq_self_iff_true, if_true,
          Option.some.injEq, true_and]
        by_cases hw : (ws.getD 0 ⊔ wg.getD 0 > t) ∧ dw = true
        · rw [if_pos hw]
          exact ⟨fun _ => ⟨hw.2, hw.1⟩, fun _ => rfl⟩
        · rw [if_neg hw]
          refine ⟨fun h => absurd h (by decide), ?_⟩
          rintro ⟨hdw, ht⟩
          exact absurd ⟨ht, hdw⟩ hw
      · simp only [flight_category_color, if_neg h1]
        split_ifs <;>
          simp_all [COLOR_MVFR, COLOR_IFR, COLOR_LIFR, COLOR_UNKNOWN,
            COLOR_WIND, Color.new]
  · intro c hc h1 h2 h3 h4
    subst hc
    simp [flight_category_color, h1, h2, h3, h4]

/-- C5, witness: concrete instances of the characterization — VFR with
wind 30 over threshold 25 resolves to WIND (winds enabled), equality at
the threshold does not, and an unrecognized category resolves to
UNKNOWN. -/
theorem flight_category_color_wind_iff_witness :
    flight_category_color (some "VFR") (some 30) none 25 true = COLOR_WIND ∧
    ¬ flight_category_color (some "VFR") (some 25) none 25 true = COLOR_WIND ∧
    flight_category_color (some "XYZ") (some 30) none 25 true = COLOR_UNKNOWN := by
  refine ⟨?_, ?_, ?_⟩
  · exact (flight_category_color_wind_iff (some "VFR") (some 30) none 25 true).1.mpr
      ⟨rfl, rfl, by decide⟩
  · intro h
    have := (flight_category_color_wind_iff (some "VFR") (some 25) none 25 true).1.mp h
    exact absurd this.2.2 (by decide)
  · exact (flight_category_color_wind_iff (some "XYZ") (some 30) none 25 true).2.2.2.2.1
      "XYZ" rfl (by decide) (by decide) (by decide) (by decide)

/-- A `u8`-range channel scaled in `u16` and cast back to `u8` computes
`⌊c * b / 255⌋` exactly: neither the `u16` product nor the `u8` cast can
wrap. -/
theorem scale_channel_eq (c b : Nat) (hc : c ≤ 255) (hb : b ≤ 255) :
    ((c * b) % 65536) / 255 % 256 = c * b / 255 := by
  have h1 : c * b < 65536 :=
    lt_of_le_of_lt (Nat.mul_le_mul hc hb) (by norm_num)
  rw [Nat.mod_eq_of_lt h1]
  have h2 : c * b / 255 < 256 := by
    have h3 : c * b ≤ 255 * 255 := Nat.mul_le_mul hc hb
    have h4 : c * b / 255 ≤ 255 * 255 / 255 := Nat.div_le_div_right h3
    norm_num at h4
    omega
  rw [Nat.mod_eq_of_lt h2]

/-- C6: for brightness `b ≤ 255` and byte-range channels, the
brightness-scaled view computes `⌊c * b / 255⌋` exactly on each channel;
brightness 0 yields all-zero colors and brightness 255 the stored colors
unchanged.  (The view is a pure function of the state, so it cannot
mutate the stored buffer or brightness.) -/
theorem brightness_scaled_view_exact :
    ∀ s : LedState, s.brightness ≤ 255 →
      (∀ c ∈ s.leds, c.r ≤ 255 ∧ c.g ≤ 255 ∧ c.b ≤ 255) →
      (s.brightness_scaled_buffer = s.leds.map (fun c =>
        ⟨c.r * s.brightness / 255, c.g * s.brightness / 255,
          c.b * s.brightness / 255⟩)) ∧
      (s.brightness = 0 →
        s.brightness_scaled_buffer = s.leds.map (fun _ => ⟨0, 0, 0⟩)) ∧
      (s.brightness = 255 → s.brightness_scaled_buffer = s.leds) := by
  intro s hb hleds
  have hmain : s.brightness_scaled_buffer = s.leds.map (fun c =>
      ⟨c.r * s.brightness / 255, c.g * s.brightness / 255,
        c.b * s.brightness / 255⟩) := by
    unfold LedState.brightness_scaled_buffer
    refine List.map_congr_left ?_
    intro c hc
    obtain ⟨hr, hg, hbl⟩ := hleds c hc
    simp only [scale_channel_eq _ _ hr hb, scale_channel_eq _ _ hg hb,
      scale_channel_eq _ _ hbl hb]
  refine ⟨hmain, ?_, ?_⟩
  · intro h0
    rw [hmain, h0]
    simp
  · intro h255
    rw [hmain, h255]
    have h : (fun c : Color => (⟨c.r * 255 / 255, c.g * 255 / 255,
        c.b * 255 / 255⟩ : Color)) = fun c => c := by
      funext c
      simp [Nat.mul_div_cancel]
    rw [h]
    simp

/-- C6, witness: scaling `(255, 128, 64)` at brightness 128 gives
`(128, 64, 32)` (pure integer truncation). -/
theorem brightness_scaled_view_exact_witness :
    (⟨[⟨255, 128, 64⟩], 128, [], []⟩ : LedState).brightness ≤ 255 ∧
    (⟨[⟨255, 128, 64⟩], 128, [], []⟩ : LedState).brightness_scaled_buffer =
      [⟨128, 64, 32⟩] := by
  refine ⟨by decide, ?_⟩
  have h := brightness_scaled_view_exact ⟨[⟨255, 128, 64⟩], 128, [], []⟩
    (by decide) (by decide)
  rw [h.1]
  decide

theorem clampNat_mem (x lo hi : Nat) (h : lo ≤ hi) :
    lo ≤ clampNat x lo hi ∧ clampNat x lo hi ≤ hi := by
  unfold clampNat; split_ifs <;> omega

theorem clampNat_idem (x lo hi : Nat) (h : lo ≤ hi) :
    clampNat (clampNat x lo hi) lo hi = clampNat x lo hi := by
  unfold clampNat; split_ifs <;> omega

/-- C7: whenever `Config::from_toml` succeeds, the resulting interval
lies in `[60, 3600]` and the wind threshold in `[0, 100]`; validation is
idempotent (the validated config is a fixed point of `validate`); and
concretely interval 10 clamps to 60, 99999 to 3600, and wind threshold
200 to 100. -/
theorem config_validation_clamps :
    ∀ (parse : String → Except Error Config) (src : String) (cfg : Config),
      Config.from_toml parse src = .ok cfg →
      (60 ≤ cfg.settings.request_interval_secs ∧
        cfg.settings.request_interval_secs ≤ 3600 ∧
        cfg.settings.wind_threshold_kt ≤ 100 ∧
        cfg.validate = cfg) ∧
      ((Config.validate ⟨{ Settings.default with request_interval_secs := 10 },
          ⟨none, none⟩, []⟩).settings.request_interval_secs = 60 ∧
        (Config.validate ⟨{ Settings.default with request_interval_secs := 99999 },
          ⟨none, none⟩, []⟩).settings.request_interval_secs = 3600 ∧
        (Config.validate ⟨{ Settings.default with wind_threshold_kt := 200 },
          ⟨none, none⟩, []⟩).settings.wind_threshold_kt = 100) := by
  intro parse src cfg h
  refine ⟨?_, by decide⟩
  unfold Config.from_toml at h
  cases hp : parse src with
  | ok c =>
    rw [hp] at h
    simp only [Except.ok.injEq] at h
    subst h
    obtain ⟨st, wifi, airports⟩ := c
    obtain ⟨b, r, w, dl, dws, dp⟩ := st
    have h1 : ∀ x, clampNat (clampNat x 60 3600) 60 3600 = clampNat x 60 3600 :=
      fun x => clampNat_idem x 60 3600 (by norm_num)
    have h2 : ∀ x, clampNat (clampNat x 0 100) 0 100 = clampNat x 0 100 :=
      fun x => clampNat_idem x 0 100 (by norm_num)
    have hm1 := clampNat_mem r 60 3600 (by norm_num)
    have hm2 := clampNat_mem w 0 100 (by norm_num)
    refine ⟨hm1.1, hm1.2, hm2.2, ?_⟩
    simp [Config.validate, h1, h2]
  | error e =>
    rw [hp] at h
    simp at h

/-- C7, witness: a parser that returns a config with interval 10
produces, through `from_toml`, a config whose interval is 60 and is in
range. -/
theorem config_validation_clamps_witness :
    Config.from_toml
      (fun _ => .ok ⟨{ Settings.default with request_interval_secs := 10 },
        ⟨none, none⟩, []⟩) "" =
      .ok (Config.validate ⟨{ Settings.default with request_interval_secs := 10 },
        ⟨none, none⟩, []⟩) ∧
    60 ≤ (Config.validate ⟨{ Settings.default with request_interval_secs := 10 },
      ⟨none, none⟩, []⟩).settings.request_interval_secs := by
  refine ⟨rfl, ?_⟩
  exact (config_validation_clamps
    (fun _ => .ok ⟨{ Settings.default with request_interval_secs := 10 },
      ⟨none, none⟩, []⟩) "" _ rfl).1.1

/-- C4, counterexample: with a 1-LED state, `set_lightning_indices [5]`
*keeps* the out-of-bounds index 5 in the stored overlay index list (it
is dropped only from the snapshot), and a subsequent flash even reports
`true`; the claim that only in-bounds indices remain installed is false
on the code. -/
theorem set_lightning_indices_keeps_oob_index :
    ((LedState.new 1 20).set_lightning_indices [5]).lightning_indices = [5] ∧
    ¬ (5 < (LedState.new 1 20).num_leds) ∧
    ((LedState.new 1 20).set_lightning_indices [5]).apply_lightning_flash.1
      = true := by
  decide

/-- C4, amended: `set_lightning_indices` stores the given index list
verbatim (out-of-bounds indices included; they are merely skipped at
flash/restore time), while the snapshot `lightning_saved` keeps exactly
the in-bounds indices, in order, each paired with its current color at
call time. -/
theorem set_lightning_indices_snapshot :
    ∀ (s : LedState) (indices : List Nat),
      ((s.set_lightning_indices indices).lightning_indices = indices) ∧
      ((s.set_lightning_indices indices).lightning_saved.map Prod.fst =
        indices.filter (fun i => decide (i < s.num_leds))) ∧
      (∀ p ∈ (s.set_lightning_indices indices).lightning_saved,
        p.1 < s.num_leds ∧ s.leds.get? p.1 = some p.2) := by
  intro s indices
  refine ⟨rfl, ?_, ?_⟩
  · simp only [LedState.set_lightning_indices]
    induction indices with
    | nil => rfl
    | cons i is ih =>
      cases hget : s.leds.get? i with
      | none =>
        have hge : ¬ i < s.num_leds := by
          have := List.get?_eq_none.mp hget
          unfold LedState.num_leds
          omega
        rw [List.filterMap_cons]
        simp only [hget, Option.map_none']
        rw [List.filter_cons_of_neg (by simpa using hge)]
        exact ih
      | some c =>
        have hlt : i < s.num_leds := by
          obtain ⟨h, -⟩ := List.get?_eq_some.mp hget
          exact h
        rw [List.filterMap_cons]
        simp only [hget, Option.map_some', List.map_cons]
        rw [List.filter_cons_of_pos (by simpa using hlt)]
        rw [ih]
  · intro p hp
    simp only [LedState.set_lightning_indices] at hp
    rw [List.mem_filterMap] at hp
    obtain ⟨a, ha, hfa⟩ := hp
    cases hget : s.leds.get? a with
    | none => rw [hget] at hfa; simp at hfa
    | some c =>
      rw [hget] at hfa
      simp only [Option.map_some', Option.some.injEq] at hfa
      subst hfa
      obtain ⟨h, -⟩ := List.get?_eq_some.mp hget
      exact ⟨h, hget⟩

/-- C4, witness: a 2-LED state given `[1, 5]` snapshots exactly index 1
(with its current color), while 5 is dropped from the snapshot. -/
theorem set_lightning_indices_snapshot_witness :
    ((LedState.new 2 20).set_lightning_indices [1, 5]).lightning_saved.map
      Prod.fst = [1] ∧
    (1, COLOR_UNKNOWN).1 < (LedState.new 2 20).num_leds ∧
    (LedState.new 2 20).leds.get? 1 = some COLOR_UNKNOWN := by
  have h := set_lightning_indices_snapshot (LedState.new 2 20) [1, 5]
  refine ⟨?_, ?_⟩
  · rw [h.2.1]
    decide
  · exact h.2.2 (1, COLOR_UNKNOWN) (by decide)



theorem flashWrites_nil (l : List Color) : LedState.flashWrites [] l = l := rfl

theorem flashWrites_cons (i : Nat) (is : List Nat) (l : List Color) :
    LedState.flashWrites (i :: is) l =
      LedState.flashWrites is (if i < l.length then l.set i COLOR_LIGHTNING else l) := rfl

theorem flashWrites_length (indices : List Nat) (l : List Color) :
    (LedState.flashWrites indices l).length = l.length := by
  induction indices generalizing l with
  | nil => rfl
  | cons i is ih =>
    rw [flashWrites_cons, ih]
    split_ifs <;> simp

theorem flashWrites_get? (indices : List Nat) (l : List Color) (j : Nat)
    (hj : j < l.length) :
    (LedState.flashWrites indices l).get? j =
      if j ∈ indices then some COLOR_LIGHTNING else l.get? j := by
  induction indices generalizing l with
  | nil => simp [flashWrites_nil]
  | cons i is ih =>
    rw [flashWrites_cons]
    have hlen' : (if i < l.length then l.set i COLOR_LIGHTNING else l).length
        = l.length := by split_ifs <;> simp
    rw [ih _ (by omega)]
    by_cases hji : j ∈ is
    · rw [if_pos hji, if_pos (List.mem_cons_of_mem i hji)]
    · rw [if_neg hji]
      by_cases hij : i = j
      · subst hij
        rw [if_pos hj, if_pos (List.mem_cons_self _ _)]
        exact List.get?_set_eq_of_lt _ hj
      · have hmem : ¬ j ∈ i :: is := by
          simp [List.mem_cons, hji]
          omega
        rw [if_neg hmem]
        split_ifs with hi
        · exact List.get?_set_ne _ _ hij
        · rfl

theorem restoreWrites_nil (l : List Color) : LedState.restoreWrites [] l = l := rfl

theorem restoreWrites_cons (p : Nat × Color) (ps : List (Nat × Color))
    (l : List Color) :
    LedState.restoreWrites (p :: ps) l =
      LedState.restoreWrites ps (if p.1 < l.length then l.set p.1 p.2 else l) := rfl

theorem restoreWrites_length (ps : List (Nat × Color)) (l : List Color) :
    (LedState.restoreWrites ps l).length = l.length := by
  induction ps generalizing l with
  | nil => rfl
  | cons p ps ih =>
    rw [restoreWrites_cons, ih]
    split_ifs <;> simp

theorem restoreWrites_get?_not_fst (ps : List (Nat × Color)) (l : List Color)
    (j : Nat) (h : ∀ p ∈ ps, p.1 ≠ j) :
    (LedState.restoreWrites ps l).get? j = l.get? j := by
  induction ps generalizing l with
  | nil => rfl
  | cons p ps ih =>
    rw [restoreWrites_cons]
    have hne := h p (List.mem_cons_self p ps)
    rw [ih _ (fun q hq => h q (List.mem_cons_of_mem p hq))]
    split_ifs with hp
    · exact List.get?_set_ne _ _ hne
    · rfl

theorem restoreWrites_get?_all_eq (ps : List (Nat × Color)) (l : List Color)
    (j : Nat) (c : Color) (h : ∀ p ∈ ps, p.1 = j → p.2 = c)
    (hex : ∃ p ∈ ps, p.1 = j) (hj : j < l.length) :
    (LedState.restoreWrites ps l).get? j = some c := by
  induction ps generalizing l with
  | nil => obtain ⟨p, hp, -⟩ := hex; exact absurd hp (List.not_mem_nil p)
  | cons p ps ih =>
    rw [restoreWrites_cons]
    have hlen' : (if p.1 < l.length then l.set p.1 p.2 else l).length
        = l.length := by split_ifs <;> simp
    by_cases hpj : p.1 = j
    · have hc : p.2 = c := h p (List.mem_cons_self p ps) hpj
      by_cases hex2 : ∃ q ∈ ps, q.1 = j
      · exact ih _ (fun q hq hqj => h q (List.mem_cons_of_mem p hq) hqj) hex2
          (by omega)
      · push_neg at hex2
        rw [restoreWrites_get?_not_fst _ _ _ hex2]
        rw [if_pos (by omega : p.1 < l.length)]
        subst hpj
        rw [List.get?_set_eq_of_lt _ hj, hc]
    · obtain ⟨q, hq, hqj⟩ := hex
      rcases List.mem_cons.mp hq with rfl | hq'
      · exact absurd hqj hpj
      · exact ih _ (fun q hq hqj => h q (List.mem_cons_of_mem p hq) hqj)
          ⟨q, hq', hqj⟩ (by omega)

theorem snapshot_get? (l : List Color) (indices : List Nat) (p : Nat × Color)
    (hp : p ∈ indices.filterMap (fun i => (l.get? i).map (fun c => (i, c)))) :
    l.get? p.1 = some p.2 ∧ p.1 ∈ indices := by
  rw [List.mem_filterMap] at hp
  obtain ⟨a, ha, hfa⟩ := hp
  cases hget : l.get? a with
  | none => rw [hget] at hfa; simp at hfa
  | some c =>
    rw [hget] at hfa
    simp only [Option.map_some', Option.some.injEq] at hfa
    subst hfa
    exact ⟨hget, ha⟩



/-- C3: flashing with an empty lightning index set returns `false` and
changes nothing; for a non-empty in-bounds index set, a flash (which
returns `true`) followed by a restore with no intervening mutation
reproduces the exact pre-flash color at every index, and indices not in
the set are untouched even while flashed. -/
theorem lightning_flash_restore_roundtrip :
    ∀ s : LedState,
      (s.lightning_indices = [] → s.apply_lightning_flash = (false, s)) ∧
      (s.lightning_indices ≠ [] →
        (∀ i ∈ s.lightning_indices, i < s.num_leds) →
        s.apply_lightning_flash.1 = true ∧
        (s.apply_lightning_flash.2.restore_lightning).leds = s.leds ∧
        (∀ j, j ∉ s.lightning_indices →
          s.apply_lightning_flash.2.leds.get? j = s.leds.get? j)) := by
  intro s
  constructor
  · intro hempty
    unfold LedState.apply_lightning_flash
    rw [if_pos (by simp [hempty])]
  · intro hne hin
    have hnotempty : s.lightning_indices.isEmpty = false := by
      cases h : s.lightning_indices with
      | nil => exact absurd h hne
      | cons a l => rfl
    have hflash : s.apply_lightning_flash =
        (true,
          { s with
            lightning_saved := s.lightning_indices.filterMap
              (fun i => (s.leds.get? i).map (fun c => (i, c)))
            leds := LedState.flashWrites s.lightning_indices s.leds }) := by
      unfold LedState.apply_lightning_flash
      rw [if_neg (by simp [hnotempty])]
    rw [hflash]
    refine ⟨rfl, ?_, ?_⟩
    · -- restore after flash gives back the original buffer
      show (LedState.restoreWrites
        (s.lightning_indices.filterMap
          (fun i => (s.leds.get? i).map (fun c => (i, c))))
        (LedState.flashWrites s.lightning_indices s.leds)) = s.leds
      apply List.ext_get?
      intro n
      by_cases hn : n < s.leds.length
      · by_cases hmem : n ∈ s.lightning_indices
        · have hget : s.leds.get? n = some (s.leds.get ⟨n, hn⟩) :=
            List.get?_eq_get hn
          rw [hget]
          apply restoreWrites_get?_all_eq
          · intro p hp hpn
            have hs := snapshot_get? s.leds s.lightning_indices p hp
            rw [hpn, hget] at hs
            exact ((Option.some.injEq _ _).mp hs.1).symm
          · refine ⟨(n, s.leds.get ⟨n, hn⟩), ?_, rfl⟩
            rw [List.mem_filterMap]
            exact ⟨n, hmem, by rw [hget]; rfl⟩
          · rw [flashWrites_length]
            exact hn
        · have hfst : ∀ p ∈ s.lightning_indices.filterMap
              (fun i => (s.leds.get? i).map (fun c => (i, c))), p.1 ≠ n := by
            intro p hp hpn
            have hs := snapshot_get? s.leds s.lightning_indices p hp
            rw [hpn] at hs
            exact hmem hs.2
          rw [restoreWrites_get?_not_fst _ _ _ hfst]
          rw [flashWrites_get? _ _ _ hn, if_neg hmem]
      · have h1 : s.leds.length ≤ n := by omega
        have h2 : (LedState.restoreWrites
            (s.lightning_indices.filterMap
              (fun i => (s.leds.get? i).map (fun c => (i, c))))
            (LedState.flashWrites s.lightning_indices s.leds)).length ≤ n := by
          rw [restoreWrites_length, flashWrites_length]; exact h1
        rw [List.get?_eq_none.mpr h2, List.get?_eq_none.mpr h1]
    · intro j hj
      show (LedState.flashWrites s.lightning_indices s.leds).get? j
        = s.leds.get? j
      by_cases hb : j < s.leds.length
      · rw [flashWrites_get? _ _ _ hb, if_neg hj]
      · have h1 : s.leds.length ≤ j := by omega
        have h2 : (LedState.flashWrites s.lightning_indices s.leds).length ≤ j := by
          rw [flashWrites_length]; exact h1
        rw [List.get?_eq_none.mpr h2, List.get?_eq_none.mpr h1]

/-- C3, witness: a 3-LED state `[VFR, IFR, MVFR]` flashing `{0, 2}`:
the flash reports `true`, index 1 keeps its color during the flash, and
restoring returns the buffer byte-exact to `[VFR, IFR, MVFR]`. -/
theorem lightning_flash_restore_roundtrip_witness :
    ((⟨[COLOR_VFR, COLOR_IFR, COLOR_MVFR], 255, [], []⟩ :
      LedState).set_lightning_indices [0, 2]).apply_lightning_flash.1 = true ∧
    (((⟨[COLOR_VFR, COLOR_IFR, COLOR_MVFR], 255, [], []⟩ :
      LedState).set_lightning_indices [0, 2]).apply_lightning_flash.2.restore_lightning).leds
      = ((⟨[COLOR_VFR, COLOR_IFR, COLOR_MVFR], 255, [], []⟩ :
      LedState).set_lightning_indices [0, 2]).leds ∧
    ((⟨[COLOR_VFR, COLOR_IFR, COLOR_MVFR], 255, [], []⟩ :
      LedState).set_lightning_indices [0, 2]).apply_lightning_flash.2.leds.get? 1
      = ((⟨[COLOR_VFR, COLOR_IFR, COLOR_MVFR], 255, [], []⟩ :
      LedState).set_lightning_indices [0, 2]).leds.get? 1 := by
  have h := (lightning_flash_restore_roundtrip
    ((⟨[COLOR_VFR, COLOR_IFR, COLOR_MVFR], 255, [], []⟩ :
      LedState).set_lightning_indices [0, 2])).2 (by decide) (by decide)
  exact ⟨h.1, h.2.1, h.2.2 1 (by decide)⟩

/-- C8, counterexample: at the minimum valid interval 60 s, the fixed
60 s retry backoff equals the configured interval — it is not *strictly*
shorter, so the claim fails for interval 60. -/
theorem fetch_backoff_equals_min_interval :
    (60 ≤ 60 ∧ 60 ≤ 3600) ∧
    next_fetch_due_time 60
        (run_loop_fetch_step [] 25 true 60 0 ⟨LedState.new 3 20, -60⟩
          (.error .connection)) - 0 = (60 : Int) ∧
    ¬ (next_fetch_due_time 60
        (run_loop_fetch_step [] 25 true 60 0 ⟨LedState.new 3 20, -60⟩
          (.error .connection)) - 0 < ((60 : Nat) : Int)) := by
  refine ⟨by norm_num, ?_, ?_⟩ <;> decide

/-- C8, amended: on every fetch failure of a due fetch, the step paints
the entire buffer `COLOR_FETCH_ERROR` (every slot, length preserved) and
the next fetch becomes due exactly 60 s after the failure — a fixed
backoff that is at most the configured interval for every valid interval
in `[60, 3600]`, and strictly shorter whenever the interval exceeds
60 s. -/
theorem fetch_failure_paints_error_and_backoff :
    ∀ (airports : List Airport) (t : Nat) (dw : Bool) (interval : Nat)
      (now : Int) (st : LoopState) (e : MetarFetchError),
      60 ≤ interval → interval ≤ 3600 →
      now - st.last_fetch ≥ (interval : Int) →
      (∀ j, j < st.led.num_leds →
        (run_loop_fetch_step airports t dw interval now st
          (.error e)).led.leds.get? j = some COLOR_FETCH_ERROR) ∧
      (run_loop_fetch_step airports t dw interval now st
        (.error e)).led.num_leds = st.led.num_leds ∧
      next_fetch_due_time interval
        (run_loop_fetch_step airports t dw interval now st (.error e))
        = now + (FETCH_RETRY_BACKOFF_SECS : Int) ∧
      FETCH_RETRY_BACKOFF_SECS ≤ interval ∧
      (60 < interval → FETCH_RETRY_BACKOFF_SECS < interval) := by
  intro airports t dw interval now st e h60 h3600 hdue
  have hstep : run_loop_fetch_step airports t dw interval now st (.error e) =
      { led := st.led.set_all COLOR_FETCH_ERROR
        last_fetch :=
          now - (interval : Int) + (FETCH_RETRY_BACKOFF_SECS : Int) } := by
    unfold run_loop_fetch_step
    rw [if_pos hdue]
  rw [hstep]
  refine ⟨?_, ?_, ?_, ?_, ?_⟩
  · intro j hj
    simp only [LedState.set_all]
    rw [List.get?_eq_get (by simpa [LedState.num_leds] using hj)]
    simp [List.getElem_map]
  · simp [LedState.set_all, LedState.num_leds]
  · unfold next_fetch_due_time
    simp only
    ring
  · simpa [FETCH_RETRY_BACKOFF_SECS] using h60
  · intro h
    simpa [FETCH_RETRY_BACKOFF_SECS] using h

/-- C8, witness: with interval 900 s and a failure of the immediately
due first fetch, slot 0 shows the fetch-error color and the next fetch
is due 60 s later — strictly sooner than 900 s. -/
theorem fetch_failure_paints_error_and_backoff_witness :
    (run_loop_fetch_step [] 25 true 900 0 ⟨LedState.new 1 20, -900⟩
      (.error .connection)).led.leds.get? 0 = some COLOR_FETCH_ERROR ∧
    next_fetch_due_time 900
      (run_loop_fetch_step [] 25 true 900 0 ⟨LedState.new 1 20, -900⟩
        (.error .connection)) = 0 + (FETCH_RETRY_BACKOFF_SECS : Int) ∧
    FETCH_RETRY_BACKOFF_SECS < 900 := by
  have h := fetch_failure_paints_error_and_backoff [] 25 true 900 0
    ⟨LedState.new 1 20, -900⟩ .connection (by norm_num) (by norm_num)
    (by decide)
  exact ⟨h.1 0 (by decide), h.2.2.1, h.2.2.2.2 (by norm_num)⟩

/-- C9: building the fetch URL from the ordered code list
`[KSFO, KLAX, KJFK]` and parsing it back recovers exactly the same
ordered code list. -/
theorem metar_url_roundtrip :
    parse_metar_url (build_metar_url ["KSFO", "KLAX", "KJFK"]) =
      some ["KSFO", "KLAX", "KJFK"] := by
  decide



theorem ok_bind {ε α β : Type} (a : α) (f : α → Except ε β) :
    ((Except.ok a : Except ε α) >>= f) = f a := rfl

theorem setDiscard_num_leds (s : LedState) (i : Nat) (c : Color) :
    (s.setDiscard i c).num_leds = s.num_leds := by
  by_cases h : i ≥ s.leds.length
  · have he : s.setDiscard i c = s := by
      unfold LedState.setDiscard LedState.set
      rw [if_pos h]
    rw [he]
  · have he : s.setDiscard i c = { s with leds := s.leds.set i c } := by
      unfold LedState.setDiscard LedState.set
      rw [if_neg h]
    rw [he]
    simp [LedState.num_leds]

theorem set_ok_of_lt (s : LedState) (i : Nat) (c : Color) (h : i < s.num_leds) :
    s.set i c = .ok (s.setDiscard i c) := by
  have h' : ¬ i ≥ s.leds.length := by
    have hl : i < s.leds.length := h
    omega
  unfold LedState.setDiscard LedState.set
  rw [if_neg h']

theorem update_go_checked_eq (metars : String → Option MetarReport) (t : Nat)
    (dw : Bool) :
    ∀ (airports : List Airport) (i : Nat) (s : LedState),
      update_go_checked metars t dw airports i s =
        .ok (update_go metars t dw airports i s) := by
  intro airports
  induction airports with
  | nil => intro i s; rfl
  | cons a rest ih =>
    intro i s
    by_cases hge : i ≥ s.num_leds
    · simp only [update_go, update_go_checked]
      rw [if_pos hge, if_pos hge]
    · simp only [update_go, update_go_checked]
      rw [if_neg hge, if_neg hge]
      have hlt : i < s.num_leds := by omega
      cases hsp : special_code_color a.code with
      | some color =>
        dsimp only
        rw [set_ok_of_lt s i color hlt, ok_bind, ih, ok_bind]
      | none =>
        dsimp only
        cases hm : metars a.code with
        | some m =>
          dsimp only
          rw [set_ok_of_lt s i
            (flight_category_color m.flt_cat m.wspd m.wgst t dw) hlt,
            ok_bind, ih, ok_bind]
        | none =>
          dsimp only
          rw [set_ok_of_lt s i COLOR_UNKNOWN hlt, ok_bind, ih]



theorem update_go_spec (metars : String → Option MetarReport) (t : Nat)
    (dw : Bool) :
    ∀ (airports : List Airport) (i : Nat) (s : LedState),
      (∀ j ∈ (update_go metars t dw airports i s).2,
        i ≤ j ∧ j < min (i + airports.length) s.num_leds) ∧
      List.Pairwise (· < ·) (update_go metars t dw airports i s).2 ∧
      (update_go metars t dw airports i s).1.num_leds = s.num_leds := by
  intro airports
  induction airports with
  | nil =>
    intro i s
    refine ⟨?_, ?_, ?_⟩ <;> simp [update_go]
  | cons a rest ih =>
    intro i s
    by_cases hge : i ≥ s.num_leds
    · have h1 : update_go metars t dw (a :: rest) i s = (s, []) := by
        simp only [update_go]
        rw [if_pos hge]
      rw [h1]
      refine ⟨?_, ?_, ?_⟩ <;> simp
    · have hlt : i < s.num_leds := by omega
      have hlen : (a :: rest).length = rest.length + 1 := List.length_cons a rest
      cases hsp : special_code_color a.code with
      | some color =>
        have hrec := ih (i + 1) (s.setDiscard i color)
        have hnum := setDiscard_num_leds s i color
        have h1 : update_go metars t dw (a :: rest) i s =
            ((update_go metars t dw rest (i + 1) (s.setDiscard i color)).1,
              if a.code = "LTNG" then
                i :: (update_go metars t dw rest (i + 1) (s.setDiscard i color)).2
              else (update_go metars t dw rest (i + 1) (s.setDiscard i color)).2) := by
          simp only [update_go]
          rw [if_neg hge, hsp]
        rw [h1]
        refine ⟨?_, ?_, ?_⟩
        · intro j hj
          rw [hlen]
          by_cases hLTNG : a.code = "LTNG"
          · rw [if_pos hLTNG] at hj
            rcases List.mem_cons.mp hj with rfl | hj'
            · omega
            · have := hrec.1 j hj'
              omega
          · rw [if_neg hLTNG] at hj
            have := hrec.1 j hj
            omega
        · split_ifs with hLTNG
          · refine List.pairwise_cons.mpr ⟨?_, hrec.2.1⟩
            intro j hj
            have := hrec.1 j hj
            omega
          · exact hrec.2.1
        · rw [hrec.2.2, hnum]
      | none =>
        cases hm : metars a.code with
        | some m =>
          have hrec := ih (i + 1)
            (s.setDiscard i (flight_category_color m.flt_cat m.wspd m.wgst t dw))
          have hnum := setDiscard_num_leds s i
            (flight_category_color m.flt_cat m.wspd m.wgst t dw)
          have h1 : update_go metars t dw (a :: rest) i s =
              ((update_go metars t dw rest (i + 1)
                (s.setDiscard i
                  (flight_category_color m.flt_cat m.wspd m.wgst t dw))).1,
                if m.has_thunderstorm then
                  i :: (update_go metars t dw rest (i + 1)
                    (s.setDiscard i
                      (flight_category_color m.flt_cat m.wspd m.wgst t dw))).2
                else (update_go metars t dw rest (i + 1)
                  (s.setDiscard i
                    (flight_category_color m.flt_cat m.wspd m.wgst t dw))).2) := by
            simp only [update_go]
            rw [if_neg hge, hsp, hm]
          rw [h1]
          refine ⟨?_, ?_, ?_⟩
          · intro j hj
            rw [hlen]
            by_cases hts : m.has_thunderstorm
            · rw [if_pos hts] at hj
              rcases List.mem_cons.mp hj with rfl | hj'
              · omega
              · have := hrec.1 j hj'
                omega
            · rw [if_neg hts] at hj
              have := hrec.1 j hj
              omega
          · split_ifs with hts
            · refine List.pairwise_cons.mpr ⟨?_, hrec.2.1⟩
              intro j hj
              have := hrec.1 j hj
              omega
            · exact hrec.2.1
          · rw [hrec.2.2, hnum]
        | none =>
          have hrec := ih (i + 1) (s.setDiscard i COLOR_UNKNOWN)
          have hnum := setDiscard_num_leds s i COLOR_UNKNOWN
          have h1 : update_go metars t dw (a :: rest) i s =
              update_go metars t dw rest (i + 1)
                (s.setDiscard i COLOR_UNKNOWN) := by
            simp only [update_go]
            rw [if_neg hge, hsp, hm]
          rw [h1]
          refine ⟨?_, hrec.2.1, ?_⟩
          · intro j hj
            rw [hlen]
            have := hrec.1 j hj
            omega
          · rw [hrec.2.2, hnum]

/-- C10: for every state and input, the lightning index list returned by
`update_leds_from_metars` is strictly increasing with every index below
`min(length of the airport list, num_leds)`, and the `set`-error branch
is unreachable: the error-propagating variant returns `.ok` of exactly
the same result, so the function never fails. -/
theorem update_leds_indices_sorted_bounded_total :
    ∀ (s : LedState) (airports : List Airport)
      (metars : String → Option MetarReport) (t : Nat) (dw : Bool),
      List.Pairwise (· < ·) (update_leds_from_metars s airports metars t dw).2 ∧
      (∀ j ∈ (update_leds_from_metars s airports metars t dw).2,
        j < min airports.length s.num_leds) ∧
      update_leds_checked s airports metars t dw =
        .ok (update_leds_from_metars s airports metars t dw) := by
  intro s airports metars t dw
  have h := update_go_spec metars t dw airports 0 s
  refine ⟨h.2.1, ?_, update_go_checked_eq metars t dw airports 0 s⟩
  intro j hj
  have := h.1 j hj
  omega

/-- C10, witness: on the nine-slot demo scenario the returned index list
is `[8]` — strictly increasing, with 8 below `min 9 9` — and the checked
variant succeeds with the same result. -/
theorem update_leds_indices_sorted_bounded_total_witness :
    List.Pairwise (· < ·) (update_leds_from_metars (LedState.new 9 20)
      [⟨"LIFR"⟩, ⟨"IFR"⟩, ⟨"MVFR"⟩, ⟨"VFR"⟩, ⟨"WVFR"⟩, ⟨"KSFO"⟩, ⟨"KLAX"⟩,
        ⟨"NULL"⟩, ⟨"LTNG"⟩]
      (metars_by_icao [⟨"KSFO", some "VFR", some 30, none, none⟩]) 25 true).2 ∧
    8 < min ([⟨"LIFR"⟩, ⟨"IFR"⟩, ⟨"MVFR"⟩, ⟨"VFR"⟩, ⟨"WVFR"⟩, ⟨"KSFO"⟩,
        ⟨"KLAX"⟩, ⟨"NULL"⟩, ⟨"LTNG"⟩] : List Airport).length
      (LedState.new 9 20).num_leds ∧
    update_leds_checked (LedState.new 9 20)
      [⟨"LIFR"⟩, ⟨"IFR"⟩, ⟨"MVFR"⟩, ⟨"VFR"⟩, ⟨"WVFR"⟩, ⟨"KSFO"⟩, ⟨"KLAX"⟩,
        ⟨"NULL"⟩, ⟨"LTNG"⟩]
      (metars_by_icao [⟨"KSFO", some "VFR", some 30, none, none⟩]) 25 true =
      .ok (update_leds_from_metars (LedState.new 9 20)
        [⟨"LIFR"⟩, ⟨"IFR"⟩, ⟨"MVFR"⟩, ⟨"VFR"⟩, ⟨"WVFR"⟩, ⟨"KSFO"⟩, ⟨"KLAX"⟩,
          ⟨"NULL"⟩, ⟨"LTNG"⟩]
        (metars_by_icao [⟨"KSFO", some "VFR", some 30, none, none⟩]) 25 true) := by
  have h := update_leds_indices_sorted_bounded_total (LedState.new 9 20)
    [⟨"LIFR"⟩, ⟨"IFR"⟩, ⟨"MVFR"⟩, ⟨"VFR"⟩, ⟨"WVFR"⟩, ⟨"KSFO"⟩, ⟨"KLAX"⟩,
      ⟨"NULL"⟩, ⟨"LTNG"⟩]
    (metars_by_icao [⟨"KSFO", some "VFR", some 30, none, none⟩]) 25 true
  exact ⟨h.1, h.2.1 8 (by decide), h.2.2⟩


end LedSectional
